import Mathlib

/-!
Verification development for the `python-edl` repository (modules
`edl/edl.py` and `edl/event.py`, with their tests).  The Python code is
shallowly embedded: statements are lists of characters, fallible Python
code becomes `Except`, and the two regular expressions used by the
`Title` and `FrameCodeMode` statement recognizers are unfolded into
explicit functions that mirror `re.search` (leftmost match, greedy
quantifiers with backtracking).
-/

namespace PyEDL

/-- Python exception kinds raised by the embedded code. -/
inductive PyError where
  | typeError
  | valueError
  | statementError
  | attributeError
deriving DecidableEq, Repr

/-- Python regex class for whitespace as used by the source patterns
(ASCII range; every string the repository manipulates is ASCII). -/
def isPySpace (c : Char) : Bool :=
  c == ' ' || c == '\t' || c == '\n' || c == '\r' || c == '\x0b' || c == '\x0c'

/-! ## Title statement (event.py, class Title)

`_regex = re.compile("TITLE:\\s?(?P<title>.+)")`, used with `re.search`.
-/

/-- The regex atom for a trailing greedy run of one or more characters:
fails when the current position is at the end or at a newline, and
otherwise captures the maximal run of non-newline characters. -/
def dotPlus (r : List Char) : Option (List Char) :=
  match r with
  | [] => none
  | c :: _ => if c == '\n' then none else some (r.takeWhile (fun d => d != '\n'))

/-- The part of the Title pattern after the identifier, an optional single
whitespace character then the trailing capture, with the backtracking
order of the Python engine (the optional whitespace is tried first). -/
def titleRest (r : List Char) : Option (List Char) :=
  match r with
  | [] => none
  | c :: rest =>
    if isPySpace c then
      match dotPlus rest with
      | some g => some g
      | none => dotPlus (c :: rest)
    else dotPlus (c :: rest)

/-- Unanchored search for the Title pattern: positions are tried left to
right, and at each position the literal identifier must match followed by
`titleRest`. -/
def titleSearch : List Char → Option (List Char)
  | [] => none
  | c :: rest =>
    if ("TITLE:".toList).isPrefixOf (c :: rest) then
      match titleRest ((c :: rest).drop 6) with
      | some g => some g
      | none => titleSearch rest
    else titleSearch rest

/-- Title._parse: stores the captured group, or raises StatementError when
the search finds no match. -/
def Title.parseRaw (raw : List Char) : Except PyError (List Char) :=
  match titleSearch raw with
  | some t => .ok t
  | none => .error .statementError

/-- Title.__str__: joins the identifier and the stored title with a single
space (an absent or empty title renders as the empty string). -/
def Title.str (title : List Char) : List Char :=
  "TITLE: ".toList ++ title

/-! ## Frame Code Mode statement (event.py, class FrameCodeMode)

`_regex = re.compile("FCM:(\\s+)?(?P<mode>(?:NON\\s)?DROP\\sFRAME)")`,
used with `re.search`; the parse sets
`isDropFrame := ("DROP FRAME" == mode group)`.
-/

/-- Matches the tail of the mode alternative after an optional `NON`: the
word DROP, one whitespace character, the word FRAME; returns the
whitespace character that was matched between the two words. -/
def dropFrameTail (r : List Char) : Option Char :=
  match r with
  | 'D' :: 'R' :: 'O' :: 'P' :: c :: 'F' :: 'R' :: 'A' :: 'M' :: 'E' :: _ =>
    if isPySpace c then some c else none
  | _ => none

/-- The mode group of the FCM pattern with its backtracking order: the
optional `NON` plus one whitespace character is tried greedily first, and
on failure the bare DROP alternative is tried at the same position (which
can only succeed when the text does not start with N).  Returns the full
text captured by the mode group. -/
def modeMatch (r : List Char) : Option (List Char) :=
  match r with
  | 'N' :: 'O' :: 'N' :: c :: rest =>
    if isPySpace c then
      match dropFrameTail rest with
      | some w => some ('N' :: 'O' :: 'N' :: c :: 'D' :: 'R' :: 'O' :: 'P' :: w :: "FRAME".toList)
      | none => none
    else none
  | _ =>
    match dropFrameTail r with
    | some w => some ('D' :: 'R' :: 'O' :: 'P' :: w :: "FRAME".toList)
    | none => none

/-- The part of the FCM pattern after the identifier: the optional greedy
whitespace run, then the mode group.  The mode group starts with a
non-whitespace character, so backtracking inside the whitespace run can
only succeed at the end of the maximal run. -/
def fcmAfter (r : List Char) : Option (List Char) :=
  modeMatch (r.dropWhile isPySpace)

/-- Unanchored search for the FCM pattern, leftmost position first. -/
def fcmSearch : List Char → Option (List Char)
  | [] => none
  | c :: rest =>
    if ("FCM:".toList).isPrefixOf (c :: rest) then
      match fcmAfter ((c :: rest).drop 4) with
      | some m => some m
      | none => fcmSearch rest
    else fcmSearch rest

/-- FrameCodeMode._parse: isDropFrame is true exactly when the captured
mode group equals the string DROP FRAME; a failed search raises
StatementError. -/
def FrameCodeMode.parseRaw (raw : List Char) : Except PyError Bool :=
  match fcmSearch raw with
  | some m => .ok (m == "DROP FRAME".toList)
  | none => .error .statementError

/-- FrameCodeMode.__str__: joins the identifier and the field text with a
single space. -/
def FrameCodeMode.str (isDropFrame : Bool) : List Char :=
  "FCM: ".toList ++ (if isDropFrame then "DROP FRAME".toList else "NON DROP FRAME".toList)

/-- Removes every whitespace character.  Any whitespace normalization of a
line keeps its non-whitespace characters in order, so two lines whose
images under this map differ are not whitespace-normalization-equivalent
under any such normalization. -/
def wsStripped (l : List Char) : List Char :=
  l.filter (fun c => !isPySpace c)

/-! ## Event model (event.py, class Event)

Modelled from the spec where the source is absent: the module
`edl/effects.py` (classes `Cut` and `Timewarp`, imported at the top of
`event.py`) is not among the repository sources; the spec defines Cut as
the "no transition" transition variant and other transitions as named
effect descriptors, which is all the code under verification inspects
(`isinstance(self.transition, Cut)`).
-/

/-- Modelled from the spec: a transition descriptor is either the Cut
variant or a named transition/effect (`edl/effects.py` is not among the
sources). -/
inductive Transition where
  | cut
  | named (effect : List Char)
deriving DecidableEq, Repr

/-- The spec treats Timecode as an opaque value carrying a `frames`
integer; only `frames` is read by the code under verification. -/
structure Timecode where
  frames : Int
deriving DecidableEq, Repr

/-- The Event attributes read by the operations the claims are about.
Attributes default to None in `Event.__init__`, hence the `Option`s; the
forward link `next_event` makes the type an inductive rather than a
structure. -/
inductive Event where
  | mk (transition : Option Transition) (aux : Option (List Char))
       (rec_start_tc : Option Timecode) (rec_end_tc : Option Timecode)
       (next_event : Option Event)

def Event.transition : Event → Option Transition
  | .mk t _ _ _ _ => t

def Event.aux : Event → Option (List Char)
  | .mk _ a _ _ _ => a

def Event.rec_start_tc : Event → Option Timecode
  | .mk _ _ s _ _ => s

def Event.rec_end_tc : Event → Option Timecode
  | .mk _ _ _ e _ => e

def Event.next_event : Event → Option Event
  | .mk _ _ _ _ n => n

/-- Python `int(x)` applied to the `aux` attribute: `int(None)` raises
TypeError, `int(s)` on a string parses an optionally signed decimal
integer surrounded by optional whitespace and raises ValueError on
anything else. -/
def pyIntOfChars (l : List Char) : Option Int :=
  let l := ((l.dropWhile isPySpace).reverse.dropWhile isPySpace).reverse
  match l with
  | '+' :: ds =>
    if !ds.isEmpty && ds.all Char.isDigit then
      some (ds.foldl (fun a c => 10 * a + ((c.toNat : Int) - 48)) 0)
    else none
  | '-' :: ds =>
    if !ds.isEmpty && ds.all Char.isDigit then
      some (-(ds.foldl (fun a c => 10 * a + ((c.toNat : Int) - 48)) 0))
    else none
  | ds =>
    if !ds.isEmpty && ds.all Char.isDigit then
      some (ds.foldl (fun a c => 10 * a + ((c.toNat : Int) - 48)) 0)
    else none

/-- Event.has_transition: `not isinstance(self.transition, Cut)`.  Note
that an absent transition (None) is not a Cut instance. -/
def Event.has_transition (e : Event) : Bool :=
  match e.transition with
  | some .cut => false
  | _ => true

/-- Event.incoming_transition_duration: `d = 0`, then
`d = int(self.aux)` whenever the transition is not a Cut instance (this
includes an absent transition). -/
def Event.incoming_transition_duration (e : Event) : Except PyError Int :=
  match e.transition with
  | some .cut => .ok 0
  | _ =>
    match e.aux with
    | none => .error .typeError
    | some s =>
      match pyIntOfChars s with
      | some n => .ok n
      | none => .error .valueError

/-- Event.outgoing_transition_duration: delegates to the next event's
incoming transition duration, 0 when there is no next event (an Event
object is always truthy in Python, so `if self.next_event` tests
presence). -/
def Event.outgoing_transition_duration (e : Event) : Except PyError Int :=
  match e.next_event with
  | some n => n.incoming_transition_duration
  | none => .ok 0

/-! ## Framerate validation (edl.py, EDL.__init__)

Python floats are embedded as exact decimal values `mantissa / 10 ^ exp`.
This models the source faithfully on every input whose decimal literal
round-trips through an IEEE-754 double (which covers all eight supported
labels and every input the claims name); inputs needing more than double
precision, exponent notation and the inf/nan literals are outside the
model.
-/

/-- A Python float as an exact decimal value `mantissa / 10 ^ exp`. -/
structure PyFloat where
  mantissa : Int
  exp : Nat
deriving DecidableEq, Repr

/-- Strips decimal-point-scaling factors of ten, the normal form used for
`float.is_integer` and `str(float)`. -/
def normAux : Int → Nat → Int × Nat
  | m, 0 => (m, 0)
  | m, e + 1 => if m % 10 = 0 then normAux (m / 10) e else (m, e + 1)

/-- Leading/trailing-whitespace strip, as `float(str)` performs on its
argument. -/
def stripPySpace (l : List Char) : List Char :=
  ((l.dropWhile isPySpace).reverse.dropWhile isPySpace).reverse

/-- An unsigned decimal literal body: digits, optionally with one decimal
point, at least one digit in total.  Returns the combined digit value and
the number of fractional digits. -/
def parseDecimalBody (l : List Char) : Option (Nat × Nat) :=
  let ip := l.takeWhile (fun c => c != '.')
  let rest := l.dropWhile (fun c => c != '.')
  match rest with
  | [] =>
    if !ip.isEmpty && ip.all Char.isDigit then
      some (ip.foldl (fun a c => 10 * a + (c.toNat - 48)) 0, 0)
    else none
  | _ :: fp =>
    if (!ip.isEmpty || !fp.isEmpty) && ip.all Char.isDigit && fp.all Char.isDigit
        && fp.all (fun c => c != '.') then
      some ((ip ++ fp).foldl (fun a c => 10 * a + (c.toNat - 48)) 0, fp.length)
    else none

/-- Python `float(s)` on a string: optional surrounding whitespace,
optional sign, plain decimal literal (see the module comment for the
forms outside the model); ValueError is signalled by `none`. -/
def pyFloatOfString (s : String) : Option PyFloat :=
  match stripPySpace s.toList with
  | '+' :: r => (parseDecimalBody r).map (fun p => ⟨(p.1 : Int), p.2⟩)
  | '-' :: r => (parseDecimalBody r).map (fun p => ⟨-(p.1 : Int), p.2⟩)
  | r => (parseDecimalBody r).map (fun p => ⟨(p.1 : Int), p.2⟩)

/-- Renders a normalized non-integer decimal `m / 10 ^ e` (with `e > 0`)
the way `str(float)` does: sign, integer digits (at least one, zero
padded), point, `e` fractional digits. -/
def renderFloatChars (m : Int) (e : Nat) : List Char :=
  let ds := (toString m.natAbs).toList
  let ds := if e + 1 ≤ ds.length then ds else List.replicate (e + 1 - ds.length) '0' ++ ds
  (if m < 0 then ['-'] else []) ++ ds.take (ds.length - e) ++ '.' :: ds.drop (ds.length - e)

/-- The canonical string the source computes from a float value:
`str(int(fps))` when the value is a whole number, `str(fps)` otherwise. -/
def pyFloatCanon (f : PyFloat) : String :=
  let p := normAux f.mantissa f.exp
  if p.2 = 0 then toString p.1 else ⟨renderFloatChars p.1 p.2⟩

/-- The supported rate labels, in the order the source builds the list
(`_NTSC_non_drop_rates + _NTSC_drop_rates + _PAL_rates`). -/
def NTSC_non_drop_rates : List String := ["24", "30", "60"]

def NTSC_drop_rates : List String := ["23.98", "29.97", "59.94"]

def PAL_rates : List String := ["25", "50"]

def supported_framerates : List String :=
  NTSC_non_drop_rates ++ NTSC_drop_rates ++ PAL_rates

/-- The membership check closing EDL.__init__. -/
def fpsCheck (fps : String) : Except PyError String :=
  if fps ∈ supported_framerates then .ok fps else .error .valueError

/-- The Python value categories EDL.__init__ can receive as `fps`. -/
inductive PyVal where
  | vint (n : Int)
  | vfloat (f : PyFloat)
  | vstr (s : String)
  | vlist
  | vdict
  | vnone
deriving Repr

/-- EDL.__init__ reduced to its observable result on `fps`: the validated
label, or the exception raised.  Non-number non-string values raise
TypeError; a string is converted with `float` (ValueError on failure);
numbers are canonicalized to a string and looked up among the supported
labels by string equality (ValueError on a miss). -/
def EDL_init_fps : PyVal → Except PyError String
  | .vlist => .error .typeError
  | .vdict => .error .typeError
  | .vnone => .error .typeError
  | .vstr s =>
    match pyFloatOfString s with
    | none => .error .valueError
    | some f => fpsCheck (pyFloatCanon f)
  | .vfloat f => fpsCheck (pyFloatCanon f)
  | .vint n => fpsCheck (toString n)

/-- The canonical string form of a framerate value, in the sense of spec
section 4.1 (defined only for numbers and strings; `none` for a string
that is not a decimal literal). -/
def canonicalString : PyVal → Option String
  | .vstr s => (pyFloatOfString s).map pyFloatCanon
  | .vfloat f => some (pyFloatCanon f)
  | .vint n => some (toString n)
  | .vlist => none
  | .vdict => none
  | .vnone => none

/-! ## EDL container (edl.py, class EDL) -/

/-- The EDL attributes the claims are about: the validated framerate label
and the event list. -/
structure EDLm where
  fps : String
  events : List Event

/-- EDL.isPAL. -/
def EDLm.isPAL (e : EDLm) : Bool :=
  e.fps ∈ PAL_rates

/-- EDL.isNTSC. -/
def EDLm.isNTSC (e : EDLm) : Bool :=
  e.fps ∈ NTSC_drop_rates || e.fps ∈ NTSC_non_drop_rates

/-- The `_nondrop_to_drop` dictionary, `dict(zip(non_drop, drop))`. -/
def nondrop_to_drop : List (String × String) :=
  NTSC_non_drop_rates.zip NTSC_drop_rates

/-- The `_drop_to_nondrop` dictionary, `dict(zip(drop, non_drop))`. -/
def drop_to_nondrop : List (String × String) :=
  NTSC_drop_rates.zip NTSC_non_drop_rates

/-- EDL.dropFrameRate.  The dictionary lookup is guarded by the
membership test, so the `getD` default is unreachable. -/
def EDLm.dropFrameRate (e : EDLm) : String :=
  if e.fps ∈ NTSC_non_drop_rates then (nondrop_to_drop.lookup e.fps).getD e.fps else e.fps

/-- EDL.nonDropFrameRate. -/
def EDLm.nonDropFrameRate (e : EDLm) : String :=
  if e.fps ∈ NTSC_drop_rates then (drop_to_nondrop.lookup e.fps).getD e.fps else e.fps

/-- The loop body accumulator pass of EDL.get_start: a None accumulator
adopts the event's rec_start_tc unconditionally; otherwise comparing
`frames` dereferences the event's timecode (AttributeError on None). -/
def getStartGo : Option Timecode → List Event → Except PyError (Option Timecode)
  | acc, [] => .ok acc
  | none, e :: rest => getStartGo e.rec_start_tc rest
  | some tc, e :: rest =>
    match e.rec_start_tc with
    | none => .error .attributeError
    | some tc2 => getStartGo (some (if tc2.frames < tc.frames then tc2 else tc)) rest

/-- EDL.get_start. -/
def EDLm.get_start (e : EDLm) : Except PyError (Option Timecode) :=
  getStartGo none e.events

/-- The loop body accumulator pass of EDL.get_end. -/
def getEndGo : Option Timecode → List Event → Except PyError (Option Timecode)
  | acc, [] => .ok acc
  | none, e :: rest => getEndGo e.rec_end_tc rest
  | some tc, e :: rest =>
    match e.rec_end_tc with
    | none => .error .attributeError
    | some tc2 => getEndGo (some (if tc.frames < tc2.frames then tc2 else tc)) rest

/-- EDL.get_end. -/
def EDLm.get_end (e : EDLm) : Except PyError (Option Timecode) :=
  getEndGo none e.events

/-- EDL.get_length: `self.get_end().frames - self.get_start().frames`,
evaluated left to right; dereferencing `frames` on a None result raises
AttributeError. -/
def EDLm.get_length (e : EDLm) : Except PyError Int :=
  match e.get_end with
  | .error err => .error err
  | .ok none => .error .attributeError
  | .ok (some etc) =>
    match e.get_start with
    | .error err => .error err
    | .ok none => .error .attributeError
    | .ok (some stc) => .ok (etc.frames - stc.frames)

/-! ## Document parsing (edl.py, EDL._parse / from_string)

`EDL._parse` builds each statement as `Statement(edl, line)`, but
`Statement.__init__(self, raw_text=None)` (event.py) accepts at most one
argument besides `self`, so the two-argument call raises TypeError before
the constructor body runs.
-/

/-- The call `Statement(edl, line)` as issued by EDL._parse: the extra
positional argument makes Python raise TypeError at the call, so the
success branch is unreachable. -/
def Statement_call2 (_edl : EDLm) (_line : List Char) : Except PyError Event :=
  .error .typeError

/-- Python `line.rstrip` with a newline argument: removes every trailing
newline character. -/
def rstripNL (l : List Char) : List Char :=
  (l.reverse.dropWhile (fun c => c == '\n')).reverse

/-- The line loop of EDL._parse: strip trailing newlines, skip falsy
(empty) lines, append the constructed statement otherwise. -/
def parseLines (edl : EDLm) : List (List Char) → Except PyError EDLm
  | [] => .ok edl
  | l :: rest =>
    let l := rstripNL l
    if l.isEmpty then parseLines edl rest
    else
      match Statement_call2 edl l with
      | .error err => .error err
      | .ok ev => parseLines ⟨edl.fps, edl.events ++ [ev]⟩ rest

/-- EDL._parse: validate the framerate by constructing `EDL(fps)` (title
and event list empty), then fold the line loop. -/
def EDL_parse (fps : PyVal) (data : List (List Char)) : Except PyError EDLm :=
  match EDL_init_fps fps with
  | .error err => .error err
  | .ok f => parseLines ⟨f, []⟩ data

/-- EDL.from_string: split the text on newlines and delegate to
EDL._parse (`EDL.from_file` reads lines from disk and delegates to the
same function). -/
def EDL_from_string (fps : PyVal) (text : List Char) : Except PyError EDLm :=
  EDL_parse fps (text.splitOn '\n')

/-! ## Theorems -/

theorem parseLines_ok (lines : List (List Char)) :
    ∀ edl out, parseLines edl lines = .ok out →
      out = edl ∧ ∀ l ∈ lines, rstripNL l = [] := by
  induction lines with
  | nil =>
    intro edl out h
    simp only [parseLines] at h
    injection h with h
    exact ⟨h.symm, by simp⟩
  | cons l rest ih =>
    intro edl out h
    simp only [parseLines] at h
    by_cases hl : (rstripNL l).isEmpty
    · rw [if_pos hl] at h
      rcases ih edl out h with ⟨h1, h2⟩
      refine ⟨h1, ?_⟩
      intro m hm
      rcases List.mem_cons.mp hm with rfl | hm
      · exact List.isEmpty_iff.mp hl
      · exact h2 m hm
    · rw [if_neg hl] at h
      simp only [Statement_call2] at h
      exact absurd h (by simp)

theorem parseLines_err (lines : List (List Char)) :
    ∀ edl, (∃ l ∈ lines, rstripNL l ≠ []) →
      parseLines edl lines = .error .typeError := by
  induction lines with
  | nil =>
    intro edl h
    rcases h with ⟨l, hl, _⟩
    exact absurd hl (by simp)
  | cons l rest ih =>
    intro edl h
    simp only [parseLines]
    by_cases hl : (rstripNL l).isEmpty
    · rw [if_pos hl]
      rcases h with ⟨m, hm, hne⟩
      rcases List.mem_cons.mp hm with rfl | hm
      · exact absurd (List.isEmpty_iff.mp hl) hne
      · exact ih edl ⟨m, hm, hne⟩
    · rw [if_neg hl]
      rfl

/-- C2: for every framerate value and every input text containing a
non-blank line, EDL.from_string raises (the two-argument construction
`Statement(edl, line)` cannot succeed); an EDL is returned only when
every line is blank, and then its event list is empty. -/
theorem c2_from_string_always_raises :
    (∀ fps text, (∃ l ∈ text.splitOn '\n', rstripNL l ≠ []) →
      ∃ err, EDL_from_string fps text = .error err) ∧
    (∀ fps text edl, EDL_from_string fps text = .ok edl →
      (∀ l ∈ text.splitOn '\n', rstripNL l = []) ∧ edl.events = []) := by
  constructor
  · intro fps text h
    unfold EDL_from_string EDL_parse
    cases hf : EDL_init_fps fps with
    | error err => exact ⟨err, rfl⟩
    | ok f => exact ⟨.typeError, parseLines_err _ _ h⟩
  · intro fps text edl h
    unfold EDL_from_string EDL_parse at h
    cases hf : EDL_init_fps fps with
    | error err => rw [hf] at h; exact absurd h (by simp)
    | ok f =>
      rw [hf] at h
      rcases parseLines_ok _ _ _ h with ⟨h1, h2⟩
      exact ⟨h2, by rw [h1]⟩

/-- C2 witness: with fps 24, the one-line text X is rejected with a
TypeError while an all-blank text produces an EDL with no events. -/
theorem c2_from_string_always_raises_witness :
    (∃ err, EDL_from_string (.vstr "24") "X".toList = .error err) ∧
    ((∀ l ∈ ("\n\n".toList).splitOn '\n', rstripNL l = []) ∧
      (EDLm.mk "24" []).events = []) :=
  ⟨c2_from_string_always_raises.1 (.vstr "24") "X".toList
    ⟨"X".toList, by decide, by decide⟩,
   c2_from_string_always_raises.2 (.vstr "24") "\n\n".toList (EDLm.mk "24" []) rfl⟩

/-- C3: the claim states that an Event with an absent (None) transition
descriptor has `has_transition() = false`, matching the method's own
docstring; the code computes `not isinstance(None, Cut)`, which is true.
This theorem evaluates the embedded code at the failing input. -/
theorem c3_has_transition_none_is_true :
    Event.has_transition (.mk none none none none none) = true := rfl

/-- C4: with linked events, a next event whose aux is the string 24 and
whose transition is a named (non-Cut) transition gives an outgoing
transition duration of 24; a Cut next transition gives 0; and an event
with no next event gives 0. -/
theorem c4_outgoing_transition_duration :
    (∀ e1 e2 : Event, e1.next_event = some e2 →
      ((e2.aux = some "24".toList ∧ (∃ eff, e2.transition = some (.named eff))) →
        e1.outgoing_transition_duration = .ok 24) ∧
      (e2.transition = some .cut → e1.outgoing_transition_duration = .ok 0)) ∧
    (∀ e : Event, e.next_event = none → e.outgoing_transition_duration = .ok 0) := by
  refine ⟨?_, ?_⟩
  · intro e1 e2 hnext
    constructor
    · rintro ⟨haux, eff, htr⟩
      have h24 : pyIntOfChars ['2', '4'] = some 24 := by decide
      simp [Event.outgoing_transition_duration, hnext,
        Event.incoming_transition_duration, htr, haux, h24]
    · intro htr
      simp [Event.outgoing_transition_duration, hnext,
        Event.incoming_transition_duration, htr]
  · intro e hnone
    simp [Event.outgoing_transition_duration, hnone]

/-- C4 witness: concrete linked events with aux 24 and a named DISSOLVE
transition, a Cut variant, and an unlinked event. -/
theorem c4_outgoing_transition_duration_witness :
    (Event.outgoing_transition_duration
      (.mk none none none none
        (some (.mk (some (.named "DISSOLVE".toList)) (some "24".toList) none none none)))
      = .ok 24) ∧
    (Event.outgoing_transition_duration
      (.mk none none none none
        (some (.mk (some .cut) (some "24".toList) none none none)))
      = .ok 0) ∧
    (Event.outgoing_transition_duration (.mk none none none none none) = .ok 0) := by
  refine ⟨?_, ?_, ?_⟩
  · exact (c4_outgoing_transition_duration.1
      (.mk none none none none
        (some (.mk (some (.named "DISSOLVE".toList)) (some "24".toList) none none none)))
      (.mk (some (.named "DISSOLVE".toList)) (some "24".toList) none none none) rfl).1
      ⟨rfl, "DISSOLVE".toList, rfl⟩
  · exact (c4_outgoing_transition_duration.1
      (.mk none none none none
        (some (.mk (some .cut) (some "24".toList) none none none)))
      (.mk (some .cut) (some "24".toList) none none none) rfl).2 rfl
  · exact c4_outgoing_transition_duration.2 (.mk none none none none none) rfl

/-- C10: an EDL with zero events returns None from both get_start and
get_end, while get_length raises AttributeError by dereferencing
`frames` on None. -/
theorem c10_empty_edl :
    ∀ edl : EDLm, edl.events = [] →
      edl.get_start = .ok none ∧ edl.get_end = .ok none ∧
      edl.get_length = .error .attributeError := by
  intro edl h
  have hs : edl.get_start = .ok none := by
    unfold EDLm.get_start
    rw [h]
    rfl
  have he : edl.get_end = .ok none := by
    unfold EDLm.get_end
    rw [h]
    rfl
  refine ⟨hs, he, ?_⟩
  unfold EDLm.get_length
  rw [he]

/-- C10 witness: the empty EDL at 24 fps. -/
theorem c10_empty_edl_witness :
    (EDLm.mk "24" []).get_start = .ok none ∧ (EDLm.mk "24" []).get_end = .ok none ∧
      (EDLm.mk "24" []).get_length = .error .attributeError :=
  c10_empty_edl (EDLm.mk "24" []) rfl

theorem fpsCheck_ok (s f : String) :
    fpsCheck s = .ok f ↔ s = f ∧ f ∈ supported_framerates := by
  unfold fpsCheck
  by_cases h : s ∈ supported_framerates
  · rw [if_pos h]
    constructor
    · intro he
      injection he with he
      exact ⟨he, he ▸ h⟩
    · rintro ⟨rfl, _⟩
      rfl
  · rw [if_neg h]
    constructor
    · intro he
      exact absurd he (by simp)
    · rintro ⟨rfl, hf⟩
      exact absurd hf h

/-- C5: the framerate argument of the EDL constructor.  Lists, mappings
and None raise TypeError; the numbers and strings from the claim whose
canonical string form is not a supported label raise ValueError (the
float 29.970001, the integers -1, 0 and 100, a non-numeric string);
acceptance holds exactly when the canonical string form equals one of the
eight labels by exact string equality, and each of the eight labels given
as a string is accepted as itself. -/
theorem c5_fps_validation :
    (EDL_init_fps .vlist = .error .typeError ∧
     EDL_init_fps .vdict = .error .typeError ∧
     EDL_init_fps .vnone = .error .typeError) ∧
    (EDL_init_fps (.vfloat ⟨29970001, 6⟩) = .error .valueError ∧
     EDL_init_fps (.vint (-1)) = .error .valueError ∧
     EDL_init_fps (.vint 0) = .error .valueError ∧
     EDL_init_fps (.vint 100) = .error .valueError ∧
     EDL_init_fps (.vstr "abc") = .error .valueError) ∧
    (∀ s, pyFloatOfString s = none → EDL_init_fps (.vstr s) = .error .valueError) ∧
    (∀ v c, canonicalString v = some c → c ∉ supported_framerates →
      EDL_init_fps v = .error .valueError) ∧
    (∀ v f, EDL_init_fps v = .ok f ↔
      canonicalString v = some f ∧ f ∈ supported_framerates) ∧
    (∀ f ∈ supported_framerates, EDL_init_fps (.vstr f) = .ok f) := by
  refine ⟨⟨rfl, rfl, rfl⟩, ⟨rfl, rfl, rfl, rfl, rfl⟩, ?_, ?_, ?_, ?_⟩
  · intro s hs
    simp only [EDL_init_fps]
    rw [hs]
  · intro v c hc hmem
    cases v with
    | vstr s =>
      simp only [canonicalString] at hc
      cases hp : pyFloatOfString s with
      | none => rw [hp] at hc; simp at hc
      | some fl =>
        rw [hp] at hc
        simp only [Option.map_some'] at hc
        injection hc with hc
        simp only [EDL_init_fps]
        rw [hp]
        show fpsCheck (pyFloatCanon fl) = Except.error PyError.valueError
        rw [hc]
        unfold fpsCheck
        rw [if_neg hmem]
    | vfloat fl =>
      simp only [canonicalString] at hc
      injection hc with hc
      simp only [EDL_init_fps]
      rw [hc]
      unfold fpsCheck
      rw [if_neg hmem]
    | vint n =>
      simp only [canonicalString] at hc
      injection hc with hc
      simp only [EDL_init_fps]
      rw [hc]
      unfold fpsCheck
      rw [if_neg hmem]
    | vlist => exact absurd hc (by simp [canonicalString])
    | vdict => exact absurd hc (by simp [canonicalString])
    | vnone => exact absurd hc (by simp [canonicalString])
  · intro v f
    cases v with
    | vstr s =>
      cases hp : pyFloatOfString s with
      | none =>
        simp only [EDL_init_fps, canonicalString]
        rw [hp]
        simp
      | some fl =>
        simp only [EDL_init_fps, canonicalString]
        rw [hp]
        simp [fpsCheck_ok]
    | vfloat fl =>
      simp only [EDL_init_fps, canonicalString]
      simp [fpsCheck_ok]
    | vint n =>
      simp only [EDL_init_fps, canonicalString]
      simp [fpsCheck_ok]
    | vlist => simp [EDL_init_fps, canonicalString]
    | vdict => simp [EDL_init_fps, canonicalString]
    | vnone => simp [EDL_init_fps, canonicalString]
  · intro f hf
    fin_cases hf <;> rfl

/-- C5 witness: the label 24 is accepted as itself, and the non-numeric
string abc and canonical form 26 of the number 26 are rejected with
ValueError. -/
theorem c5_fps_validation_witness :
    EDL_init_fps (.vstr "24") = .ok "24" ∧
    EDL_init_fps (.vstr "abc") = .error .valueError ∧
    EDL_init_fps (.vint 26) = .error .valueError :=
  ⟨c5_fps_validation.2.2.2.2.2 "24" (by decide),
   c5_fps_validation.2.2.1 "abc" rfl,
   c5_fps_validation.2.2.2.1 (.vint 26) "26" rfl (by decide)⟩

/-- C6: over the eight supported labels, dropFrameRate sends each NTSC
non-drop label to its drop pair and fixes every other label,
nonDropFrameRate is the symmetric inverse, composing the two on either
side agrees with dropFrameRate alone, and isNTSC/isPAL classify every
label into exactly one of the two families. -/
theorem c6_framerate_conversions :
    ∀ e : EDLm, e.fps ∈ supported_framerates →
      ((e.fps = "24" ∧ e.dropFrameRate = "23.98") ∨
       (e.fps = "30" ∧ e.dropFrameRate = "29.97") ∨
       (e.fps = "60" ∧ e.dropFrameRate = "59.94") ∨
       (e.fps ∉ NTSC_non_drop_rates ∧ e.dropFrameRate = e.fps)) ∧
      ((e.fps = "23.98" ∧ e.nonDropFrameRate = "24") ∨
       (e.fps = "29.97" ∧ e.nonDropFrameRate = "30") ∨
       (e.fps = "59.94" ∧ e.nonDropFrameRate = "60") ∨
       (e.fps ∉ NTSC_drop_rates ∧ e.nonDropFrameRate = e.fps)) ∧
      (EDLm.dropFrameRate ⟨e.nonDropFrameRate, e.events⟩ = e.dropFrameRate) ∧
      ((e.isNTSC = true ∧ e.isPAL = false) ∨ (e.isPAL = true ∧ e.isNTSC = false)) := by
  intro e h
  have h8 : e.fps = "24" ∨ e.fps = "30" ∨ e.fps = "60" ∨ e.fps = "23.98" ∨
      e.fps = "29.97" ∨ e.fps = "59.94" ∨ e.fps = "25" ∨ e.fps = "50" := by
    simpa [supported_framerates, NTSC_non_drop_rates, NTSC_drop_rates, PAL_rates] using h
  rcases h8 with h | h | h | h | h | h | h | h <;>
    simp [EDLm.dropFrameRate, EDLm.nonDropFrameRate, EDLm.isNTSC, EDLm.isPAL,
      nondrop_to_drop, drop_to_nondrop, NTSC_non_drop_rates, NTSC_drop_rates,
      PAL_rates, h, List.lookup]

/-- C6 witness: the conversion facts evaluated on the EDL constructed
with the label 24. -/
theorem c6_framerate_conversions_witness :
    (((EDLm.mk "24" []).fps = "24" ∧ (EDLm.mk "24" []).dropFrameRate = "23.98") ∨
     ((EDLm.mk "24" []).fps = "30" ∧ (EDLm.mk "24" []).dropFrameRate = "29.97") ∨
     ((EDLm.mk "24" []).fps = "60" ∧ (EDLm.mk "24" []).dropFrameRate = "59.94") ∨
     ((EDLm.mk "24" []).fps ∉ NTSC_non_drop_rates ∧
       (EDLm.mk "24" []).dropFrameRate = (EDLm.mk "24" []).fps)) ∧
    (((EDLm.mk "24" []).fps = "23.98" ∧ (EDLm.mk "24" []).nonDropFrameRate = "24") ∨
     ((EDLm.mk "24" []).fps = "29.97" ∧ (EDLm.mk "24" []).nonDropFrameRate = "30") ∨
     ((EDLm.mk "24" []).fps = "59.94" ∧ (EDLm.mk "24" []).nonDropFrameRate = "60") ∨
     ((EDLm.mk "24" []).fps ∉ NTSC_drop_rates ∧
       (EDLm.mk "24" []).nonDropFrameRate = (EDLm.mk "24" []).fps)) ∧
    (EDLm.dropFrameRate ⟨(EDLm.mk "24" []).nonDropFrameRate, (EDLm.mk "24" []).events⟩ =
      (EDLm.mk "24" []).dropFrameRate) ∧
    (((EDLm.mk "24" []).isNTSC = true ∧ (EDLm.mk "24" []).isPAL = false) ∨
     ((EDLm.mk "24" []).isPAL = true ∧ (EDLm.mk "24" []).isNTSC = false)) :=
  c6_framerate_conversions (EDLm.mk "24" []) (by decide)

theorem dotPlus_sound (r t : List Char) (h : dotPlus r = some t) :
    t ≠ [] ∧ t.takeWhile (fun d => d != '\n') = t := by
  cases r with
  | nil => simp [dotPlus] at h
  | cons c cs =>
    simp only [dotPlus] at h
    by_cases hc : (c == '\n') = true
    · rw [if_pos hc] at h
      cases h
    · rw [if_neg hc] at h
      injection h with h
      subst h
      have hcf : c ≠ '\n' := by simpa using hc
      constructor
      · simp [List.takeWhile_cons, hcf]
      · apply List.takeWhile_eq_self_iff.mpr
        intro x hx
        exact @List.mem_takeWhile_imp Char (fun d => d != '\n') (c :: cs) x hx

theorem titleRest_sound (r t : List Char) (h : titleRest r = some t) :
    t ≠ [] ∧ t.takeWhile (fun d => d != '\n') = t := by
  cases r with
  | nil => simp [titleRest] at h
  | cons c cs =>
    simp only [titleRest] at h
    split at h
    · split at h
      · rename_i g hg
        injection h with h
        exact h ▸ dotPlus_sound cs g hg
      · exact dotPlus_sound _ t h
    · exact dotPlus_sound _ t h

theorem titleSearch_sound (L : List Char) :
    ∀ t, titleSearch L = some t → t ≠ [] ∧ t.takeWhile (fun d => d != '\n') = t := by
  induction L with
  | nil => intro t h; simp [titleSearch] at h
  | cons c cs ih =>
    intro t h
    simp only [titleSearch] at h
    split at h
    · split at h
      · rename_i g hg
        injection h with h
        exact h ▸ titleRest_sound _ g hg
      · exact ih t h
    · exact ih t h

theorem titleSearch_roundtrip (t : List Char) (h1 : t ≠ [])
    (h2 : t.takeWhile (fun d => d != '\n') = t) :
    titleSearch ("TITLE: ".toList ++ t) = some t := by
  obtain ⟨c, cs, rfl⟩ := List.exists_cons_of_ne_nil h1
  have hbeq : (c == '\n') = false := by
    by_contra hcc
    simp only [Bool.not_eq_false] at hcc
    rw [List.takeWhile_cons] at h2
    rw [show (c != '\n') = false by simp [bne, hcc]] at h2
    simp at h2
  have hdp2 : dotPlus (c :: cs) = some (c :: cs) := by
    simp only [dotPlus, hbeq]
    simpa using h2
  have hrest : titleRest (' ' :: c :: cs) = some (c :: cs) := by
    have hr : titleRest (' ' :: c :: cs) =
        match dotPlus (c :: cs) with
        | some g => some g
        | none => dotPlus (' ' :: c :: cs) := rfl
    rw [hr, hdp2]
  show titleSearch ('T' :: 'I' :: 'T' :: 'L' :: 'E' :: ':' :: ' ' :: c :: cs) = some (c :: cs)
  have hsearch : titleSearch ('T' :: 'I' :: 'T' :: 'L' :: 'E' :: ':' :: ' ' :: c :: cs) =
      match titleRest (' ' :: c :: cs) with
      | some g => some g
      | none => titleSearch ('I' :: 'T' :: 'L' :: 'E' :: ':' :: ' ' :: c :: cs) := rfl
  rw [hsearch, hrest]

/-- C1 (amended): for every line accepted by the Title recognizer,
re-parsing the serialization reproduces the same title field, and for
every line accepted by the FrameCodeMode recognizer, re-parsing the
serialization reproduces the same isDropFrame field.  The original
claim's additional clause, that the serialized form is always
whitespace-normalization-equivalent to the accepted line, is false (see
the counterexample): the unanchored search discards text before the
identifier and after the FCM mode. -/
theorem c1_semantic_roundtrip :
    (∀ L t, Title.parseRaw L = .ok t → Title.parseRaw (Title.str t) = .ok t) ∧
    (∀ L b, FrameCodeMode.parseRaw L = .ok b →
      FrameCodeMode.parseRaw (FrameCodeMode.str b) = .ok b) := by
  constructor
  · intro L t h
    unfold Title.parseRaw at h
    cases hs : titleSearch L with
    | none => rw [hs] at h; cases h
    | some g =>
      rw [hs] at h
      injection h with h
      subst h
      rcases titleSearch_sound L g hs with ⟨h1, h2⟩
      unfold Title.parseRaw Title.str
      rw [titleSearch_roundtrip g h1 h2]
  · intro L b _
    cases b
    · rfl
    · rfl

/-- C1 witness: round trips at a parsed Title line and a parsed drop
frame FCM line. -/
theorem c1_semantic_roundtrip_witness :
    Title.parseRaw (Title.str "My Show".toList) = .ok "My Show".toList ∧
    FrameCodeMode.parseRaw (FrameCodeMode.str true) = .ok true :=
  ⟨c1_semantic_roundtrip.1 "TITLE: My Show".toList "My Show".toList rfl,
   c1_semantic_roundtrip.2 "FCM: DROP FRAME".toList true rfl⟩

/-- C1 counterexample: the line xxFCM: DROP FRAME is accepted by the
FrameCodeMode recognizer, yet its serialization drops the non-whitespace
prefix xx, so no whitespace normalization can make the two lines
equivalent. -/
theorem c1_ws_equivalence_counterexample :
    FrameCodeMode.parseRaw "xxFCM: DROP FRAME".toList = .ok true ∧
    wsStripped (FrameCodeMode.str true) ≠ wsStripped "xxFCM: DROP FRAME".toList :=
  ⟨rfl, by decide⟩

/-- C7 (amended): FCM parsing succeeds for lines containing the literal
FCM:, optional whitespace, then DROP FRAME or NON DROP FRAME
(case-sensitive); because the pattern is unanchored, arbitrary trailing
text after the mode and text before the identifier are permitted and
ignored rather than being a parse error; lines whose mode text differs in
case or content raise StatementError. -/
theorem c7_fcm_recognizer :
    (∀ t : List Char, FrameCodeMode.parseRaw ("FCM: DROP FRAME".toList ++ t) = .ok true) ∧
    (∀ t : List Char,
      FrameCodeMode.parseRaw ("FCM: NON DROP FRAME".toList ++ t) = .ok false) ∧
    (FrameCodeMode.parseRaw "FCM:DROP FRAME".toList = .ok true) ∧
    (FrameCodeMode.parseRaw " FCM:  NON DROP FRAME".toList = .ok false) ∧
    (FrameCodeMode.parseRaw "xFCM: DROP FRAME".toList = .ok true) ∧
    (FrameCodeMode.parseRaw "FCM DROP FRAME".toList = .error .statementError) ∧
    (FrameCodeMode.parseRaw "Fcm: DROP FRAME".toList = .error .statementError) ∧
    (FrameCodeMode.parseRaw "FCM: Drop Frame".toList = .error .statementError) ∧
    (FrameCodeMode.parseRaw "FCM: NONDROP FRAME".toList = .error .statementError) :=
  ⟨fun _ => rfl, fun _ => rfl, rfl, rfl, rfl, rfl, rfl, rfl, rfl⟩

/-- C7 counterexample: the claim says a valid mode followed by additional
trailing text raises a StatementError; the code accepts it (this very
input appears in the repository tests as parsed correctly). -/
theorem c7_trailing_text_counterexample :
    FrameCodeMode.parseRaw "FCM: DROP FRAME  .".toList = .ok true := rfl

/-- C8 (amended): Title parsing accepts a line whenever TITLE: occurs in
it case-sensitively with at least one following character, including
embedded inside a longer token such as SUBTITLE: (the search is
unanchored, so the original claim's exact-token requirement is false);
Title: and TITLE : do not match; the title is the remainder after the
occurrence and at most one following whitespace character, verbatim
including trailing whitespace; text before the occurrence is ignored. -/
theorem c8_title_recognizer :
    (Title.parseRaw "Title: Test Title".toList = .error .statementError) ∧
    (Title.parseRaw "TITLE : Test Title".toList = .error .statementError) ∧
    (Title.parseRaw "SUBTITLE: Foo".toList = .ok "Foo".toList) ∧
    (∀ t, t ≠ [] → t.takeWhile (fun d => d != '\n') = t →
      Title.parseRaw ("TITLE: ".toList ++ t) = .ok t) ∧
    (Title.parseRaw "TITLE:  x".toList = .ok " x".toList) ∧
    (Title.parseRaw "  TITLE:   Test   Title   ".toList = .ok "  Test   Title   ".toList) := by
  refine ⟨rfl, rfl, rfl, ?_, rfl, rfl⟩
  intro t h1 h2
  unfold Title.parseRaw
  rw [titleSearch_roundtrip t h1 h2]

/-- C8 witness: the verbatim-remainder clause applied to a title with
internal and trailing whitespace. -/
theorem c8_title_recognizer_witness :
    Title.parseRaw ("TITLE: ".toList ++ "Test  ".toList) = .ok "Test  ".toList :=
  c8_title_recognizer.2.2.2.1 "Test  ".toList (by decide) (by decide)

/-- C8 counterexample: TITLE: embedded inside the longer token SUBTITLE:
is accepted by the code, while the claim requires it to raise a
StatementError. -/
theorem c8_embedded_token_counterexample :
    Title.parseRaw "SUBTITLE: Embedded".toList = .ok "Embedded".toList := rfl

theorem getStartGo_min (evts : List Event) :
    ∀ tc : Timecode, (∀ e ∈ evts, e.rec_start_tc ≠ none) →
      ∃ tcm, getStartGo (some tc) evts = .ok (some tcm) ∧
        (tcm = tc ∨ ∃ e ∈ evts, e.rec_start_tc = some tcm) ∧
        tcm.frames ≤ tc.frames ∧
        (∀ e ∈ evts, ∀ u, e.rec_start_tc = some u → tcm.frames ≤ u.frames) := by
  induction evts with
  | nil =>
    intro tc _
    exact ⟨tc, rfl, Or.inl rfl, le_refl _, by simp⟩
  | cons e rest ih =>
    intro tc hall
    obtain ⟨u, hu⟩ : ∃ u, e.rec_start_tc = some u := by
      cases he : e.rec_start_tc with
      | none => exact absurd he (hall e (by simp))
      | some u => exact ⟨u, rfl⟩
    have hstep : getStartGo (some tc) (e :: rest) =
        getStartGo (some (if u.frames < tc.frames then u else tc)) rest := by
      simp [getStartGo, hu]
    rcases ih (if u.frames < tc.frames then u else tc)
        (fun x hx => hall x (by simp [hx])) with ⟨tcm, hrun, hmem, hle, hmin⟩
    refine ⟨tcm, hstep ▸ hrun, ?_, ?_, ?_⟩
    · rcases hmem with h | ⟨x, hx, hxx⟩
      · by_cases hlt : u.frames < tc.frames
        · rw [if_pos hlt] at h
          exact Or.inr ⟨e, by simp, h ▸ hu⟩
        · rw [if_neg hlt] at h
          exact Or.inl h
      · exact Or.inr ⟨x, by simp [hx], hxx⟩
    · by_cases hlt : u.frames < tc.frames
      · rw [if_pos hlt] at hle
        exact le_trans hle (le_of_lt hlt)
      · rw [if_neg hlt] at hle
        exact hle
    · intro x hx v hv
      rcases List.mem_cons.mp hx with rfl | hx
      · have huv : v = u := by
          rw [hu] at hv
          injection hv with hv
          exact hv.symm
        subst huv
        by_cases hlt : v.frames < tc.frames
        · rw [if_pos hlt] at hle
          exact hle
        · rw [if_neg hlt] at hle
          exact le_trans hle (not_lt.mp hlt)
      · exact hmin x hx v hv

theorem getEndGo_max (evts : List Event) :
    ∀ tc : Timecode, (∀ e ∈ evts, e.rec_end_tc ≠ none) →
      ∃ tcm, getEndGo (some tc) evts = .ok (some tcm) ∧
        (tcm = tc ∨ ∃ e ∈ evts, e.rec_end_tc = some tcm) ∧
        tc.frames ≤ tcm.frames ∧
        (∀ e ∈ evts, ∀ u, e.rec_end_tc = some u → u.frames ≤ tcm.frames) := by
  induction evts with
  | nil =>
    intro tc _
    exact ⟨tc, rfl, Or.inl rfl, le_refl _, by simp⟩
  | cons e rest ih =>
    intro tc hall
    obtain ⟨u, hu⟩ : ∃ u, e.rec_end_tc = some u := by
      cases he : e.rec_end_tc with
      | none => exact absurd he (hall e (by simp))
      | some u => exact ⟨u, rfl⟩
    have hstep : getEndGo (some tc) (e :: rest) =
        getEndGo (some (if tc.frames < u.frames then u else tc)) rest := by
      simp [getEndGo, hu]
    rcases ih (if tc.frames < u.frames then u else tc)
        (fun x hx => hall x (by simp [hx])) with ⟨tcm, hrun, hmem, hle, hmax⟩
    refine ⟨tcm, hstep ▸ hrun, ?_, ?_, ?_⟩
    · rcases hmem with h | ⟨x, hx, hxx⟩
      · by_cases hlt : tc.frames < u.frames
        · rw [if_pos hlt] at h
          exact Or.inr ⟨e, by simp, h ▸ hu⟩
        · rw [if_neg hlt] at h
          exact Or.inl h
      · exact Or.inr ⟨x, by simp [hx], hxx⟩
    · by_cases hlt : tc.frames < u.frames
      · rw [if_pos hlt] at hle
        exact le_trans (le_of_lt hlt) hle
      · rw [if_neg hlt] at hle
        exact hle
    · intro x hx v hv
      rcases List.mem_cons.mp hx with rfl | hx
      · have huv : v = u := by
          rw [hu] at hv
          injection hv with hv
          exact hv.symm
        subst huv
        by_cases hlt : tc.frames < v.frames
        · rw [if_pos hlt] at hle
          exact hle
        · rw [if_neg hlt] at hle
          exact le_trans (not_lt.mp hlt) hle
      · exact hmax x hx v hv

/-- C9: for an EDL with at least one event (whose record timecodes are
present), get_start returns the rec_start timecode whose frames value is
minimal over all events, get_end the rec_end timecode whose frames value
is maximal, and get_length is the difference of the two frames values; in
particular the three-event EDL with rec_start frames 0, 24, 100 and
rec_end frames 24, 100, 150 yields start frames 0, end frames 150 and
length 150. -/
theorem c9_start_end_length :
    (∀ edl : EDLm, edl.events ≠ [] →
      (∀ e ∈ edl.events, e.rec_start_tc ≠ none ∧ e.rec_end_tc ≠ none) →
      (∃ s, edl.get_start = .ok (some s) ∧
        (∃ e ∈ edl.events, e.rec_start_tc = some s) ∧
        (∀ e ∈ edl.events, ∀ u, e.rec_start_tc = some u → s.frames ≤ u.frames)) ∧
      (∃ t, edl.get_end = .ok (some t) ∧
        (∃ e ∈ edl.events, e.rec_end_tc = some t) ∧
        (∀ e ∈ edl.events, ∀ u, e.rec_end_tc = some u → u.frames ≤ t.frames)) ∧
      (∀ s t, edl.get_start = .ok (some s) → edl.get_end = .ok (some t) →
        edl.get_length = .ok (t.frames - s.frames))) ∧
    ((EDLm.mk "24" [.mk none none (some ⟨0⟩) (some ⟨24⟩) none,
        .mk none none (some ⟨24⟩) (some ⟨100⟩) none,
        .mk none none (some ⟨100⟩) (some ⟨150⟩) none]).get_start = .ok (some ⟨0⟩) ∧
     (EDLm.mk "24" [.mk none none (some ⟨0⟩) (some ⟨24⟩) none,
        .mk none none (some ⟨24⟩) (some ⟨100⟩) none,
        .mk none none (some ⟨100⟩) (some ⟨150⟩) none]).get_end = .ok (some ⟨150⟩) ∧
     (EDLm.mk "24" [.mk none none (some ⟨0⟩) (some ⟨24⟩) none,
        .mk none none (some ⟨24⟩) (some ⟨100⟩) none,
        .mk none none (some ⟨100⟩) (some ⟨150⟩) none]).get_length = .ok 150) := by
  constructor
  · intro edl hne hall
    obtain ⟨e0, rest, hev⟩ := List.exists_cons_of_ne_nil hne
    obtain ⟨u0, hu0⟩ : ∃ u, e0.rec_start_tc = some u := by
      cases he : e0.rec_start_tc with
      | none => exact absurd he (hall e0 (by simp [hev])).1
      | some u => exact ⟨u, rfl⟩
    obtain ⟨v0, hv0⟩ : ∃ v, e0.rec_end_tc = some v := by
      cases he : e0.rec_end_tc with
      | none => exact absurd he (hall e0 (by simp [hev])).2
      | some v => exact ⟨v, rfl⟩
    refine ⟨?_, ?_, ?_⟩
    · rcases getStartGo_min rest u0
          (fun x hx => (hall x (by simp [hev, hx])).1) with ⟨s, hrun, hmem, hle, hmin⟩
      refine ⟨s, ?_, ?_, ?_⟩
      · unfold EDLm.get_start
        rw [hev]
        show getStartGo e0.rec_start_tc rest = .ok (some s)
        rw [hu0]
        exact hrun
      · rcases hmem with rfl | ⟨x, hx, hxx⟩
        · exact ⟨e0, by simp [hev], hu0⟩
        · exact ⟨x, by simp [hev, hx], hxx⟩
      · intro x hx u hu
        rw [hev] at hx
        rcases List.mem_cons.mp hx with rfl | hx
        · have : u = u0 := by
            rw [hu0] at hu
            injection hu with hu
            exact hu.symm
          exact this ▸ hle
        · exact hmin x hx u hu
    · rcases getEndGo_max rest v0
          (fun x hx => (hall x (by simp [hev, hx])).2) with ⟨t, hrun, hmem, hle, hmax⟩
      refine ⟨t, ?_, ?_, ?_⟩
      · unfold EDLm.get_end
        rw [hev]
        show getEndGo e0.rec_end_tc rest = .ok (some t)
        rw [hv0]
        exact hrun
      · rcases hmem with rfl | ⟨x, hx, hxx⟩
        · exact ⟨e0, by simp [hev], hv0⟩
        · exact ⟨x, by simp [hev, hx], hxx⟩
      · intro x hx v hv
        rw [hev] at hx
        rcases List.mem_cons.mp hx with rfl | hx
        · have : v = v0 := by
            rw [hv0] at hv
            injection hv with hv
            exact hv.symm
          exact this ▸ hle
        · exact hmax x hx v hv
    · intro s t hs ht
      unfold EDLm.get_length
      rw [ht, hs]
  · exact ⟨rfl, rfl, rfl⟩

/-- C9 witness: the general clause applied to the three-event EDL of the
scenario. -/
theorem c9_start_end_length_witness :
    (∃ s, (EDLm.mk "24" [.mk none none (some ⟨0⟩) (some ⟨24⟩) none,
        .mk none none (some ⟨24⟩) (some ⟨100⟩) none,
        .mk none none (some ⟨100⟩) (some ⟨150⟩) none]).get_start = .ok (some s) ∧
      (∃ e ∈ (EDLm.mk "24" [.mk none none (some ⟨0⟩) (some ⟨24⟩) none,
        .mk none none (some ⟨24⟩) (some ⟨100⟩) none,
        .mk none none (some ⟨100⟩) (some ⟨150⟩) none]).events, e.rec_start_tc = some s) ∧
      (∀ e ∈ (EDLm.mk "24" [.mk none none (some ⟨0⟩) (some ⟨24⟩) none,
        .mk none none (some ⟨24⟩) (some ⟨100⟩) none,
        .mk none none (some ⟨100⟩) (some ⟨150⟩) none]).events,
        ∀ u, e.rec_start_tc = some u → s.frames ≤ u.frames)) ∧
    (∃ t, (EDLm.mk "24" [.mk none none (some ⟨0⟩) (some ⟨24⟩) none,
        .mk none none (some ⟨24⟩) (some ⟨100⟩) none,
        .mk none none (some ⟨100⟩) (some ⟨150⟩) none]).get_end = .ok (some t) ∧
      (∃ e ∈ (EDLm.mk "24" [.mk none none (some ⟨0⟩) (some ⟨24⟩) none,
        .mk none none (some ⟨24⟩) (some ⟨100⟩) none,
        .mk none none (some ⟨100⟩) (some ⟨150⟩) none]).events, e.rec_end_tc = some t) ∧
      (∀ e ∈ (EDLm.mk "24" [.mk none none (some ⟨0⟩) (some ⟨24⟩) none,
        .mk none none (some ⟨24⟩) (some ⟨100⟩) none,
        .mk none none (some ⟨100⟩) (some ⟨150⟩) none]).events,
        ∀ u, e.rec_end_tc = some u → u.frames ≤ t.frames)) ∧
    (∀ s t, (EDLm.mk "24" [.mk none none (some ⟨0⟩) (some ⟨24⟩) none,
        .mk none none (some ⟨24⟩) (some ⟨100⟩) none,
        .mk none none (some ⟨100⟩) (some ⟨150⟩) none]).get_start = .ok (some s) →
      (EDLm.mk "24" [.mk none none (some ⟨0⟩) (some ⟨24⟩) none,
        .mk none none (some ⟨24⟩) (some ⟨100⟩) none,
        .mk none none (some ⟨100⟩) (some ⟨150⟩) none]).get_end = .ok (some t) →
      (EDLm.mk "24" [.mk none none (some ⟨0⟩) (some ⟨24⟩) none,
        .mk none none (some ⟨24⟩) (some ⟨100⟩) none,
        .mk none none (some ⟨100⟩) (some ⟨150⟩) none]).get_length = .ok (t.frames - s.frames)) :=
  c9_start_end_length.1
    (EDLm.mk "24" [.mk none none (some ⟨0⟩) (some ⟨24⟩) none,
      .mk none none (some ⟨24⟩) (some ⟨100⟩) none,
      .mk none none (some ⟨100⟩) (some ⟨150⟩) none])
    (by simp)
    (by decide)

end PyEDL
